import Mathlib

/-!
Verification of the forecast-reshaping core of a weather web app
(`static/app.js`): day grouping, slot matching, temperature colorizing,
display labels, and the search orchestration of the Angular controller.

The browser's `Date` localization (local year/month/day/hour and
`toLocaleDateString`) is environment-dependent; it is modelled as an
explicit `Locale` parameter `Int → LocalDate` mapping epoch seconds to the
viewer's local calendar data.  A concrete UTC locale (`utcLocale`, via the
standard civil-from-days algorithm) instantiates it in concrete examples.

JS numbers appearing in the temperature-color computation are modelled as
rationals; epoch timestamps and hours as integers.
-/

namespace WeatherApp

/-- One forecast data point (`item` of `data.forecast.list`).  Only `dt`
(epoch seconds) is used by the core logic; the display-only fields
(`temp`, icon, description, …) are summarized by an opaque `display` tag
so that distinct samples with equal timestamps can be represented. -/
structure Sample where
  dt : Int
  display : Nat := 0
  deriving Repr, DecidableEq

/-- The viewer-local calendar data the browser derives from a `Date`:
`getFullYear()`, `getMonth()` (0-based), `getDate()`, `getHours()`,
and `toLocaleDateString(undefined, {weekday, month, day})`. -/
structure LocalDate where
  year : Int
  month : Int
  day : Int
  hour : Int
  dateLabel : String
  deriving Repr, DecidableEq

/-- The viewer's local interpretation of an epoch-seconds timestamp
(`new Date(dt * 1000)` plus the accessors above). -/
abbrev Locale := Int → LocalDate

/-- `date.getFullYear() + "-" + (date.getMonth() + 1) + "-" + date.getDate()` -/
def dayKey (loc : Locale) (dt : Int) : String :=
  let date := loc dt
  toString date.year ++ "-" ++ toString (date.month + 1) ++ "-" ++ toString date.day

/-- One calendar day's bucket: `{ label, items }`. -/
structure Bucket where
  label : String
  items : List Sample
  deriving Repr, DecidableEq

/-- `grouped[dayKey]` update: if the key is present, push the item onto that
bucket's `items` (first matching entry); otherwise append a fresh bucket
`{ label, items: [item] }` under the key.  JS object string keys that are
not array indices (day keys contain dashes) preserve insertion order. -/
def groupedInsert (key : String) (label : String) (item : Sample) :
    List (String × Bucket) → List (String × Bucket)
  | [] => [(key, { label := label, items := [item] })]
  | (k, b) :: rest =>
      if k = key then (k, { label := b.label, items := b.items ++ [item] }) :: rest
      else (k, b) :: groupedInsert key label item rest

/-- The `list.forEach` loop of `buildGroupedForecast`, folding items into
the `grouped` object (as an insertion-ordered association list). -/
def groupByDay (loc : Locale) : List Sample → List (String × Bucket) → List (String × Bucket)
  | [], grouped => grouped
  | item :: rest, grouped =>
      groupByDay loc rest
        (groupedInsert (dayKey loc item.dt) (loc item.dt).dateLabel item grouped)

/-- `buildGroupedForecast(list)`: `null` guard, group by local day key,
`Object.values(grouped).slice(0, 5)`. -/
def buildGroupedForecast (loc : Locale) : Option (List Sample) → List Bucket
  | none => []
  | some list => ((groupByDay loc list []).map Prod.snd).take 5

/-- A time slot `{ label, hours }`; `hours` is `Option` so that a slot
object lacking the `hours` field (falsy in `!slot.hours`) is representable. -/
structure Slot where
  label : String
  hours : Option (List Int)
  deriving Repr, DecidableEq

/-- `buildTimeSlots()`: the four fixed time slots. -/
def buildTimeSlots : List Slot :=
  [ { label := "🌅 Morning", hours := some [6, 9, 12] },
    { label := "☀️ Afternoon", hours := some [12, 15, 18] },
    { label := "🌇 Evening", hours := some [18, 21] },
    { label := "🌙 Night", hours := some [0, 3, 21, 23] } ]

/-- `Infinity`-seeded strict comparison: `bestDiff` starts at `Infinity`
(modelled `none`); `diff < bestDiff`. -/
def oLt : Option Nat → Option Nat → Bool
  | none, _ => false
  | some _, none => true
  | some d, some b => decide (d < b)

/-- `findForecastForSlot(items, slot)`: guard on falsy `items`/`slot.hours`,
then the nested `forEach` scan tracking `best`/`bestDiff`. -/
def findForecastForSlot (loc : Locale) (items : Option (List Sample)) (slot : Slot) :
    Option Sample :=
  match items, slot.hours with
  | some items, some hours =>
      (items.foldl
        (fun st it =>
          let h := (loc it.dt).hour
          hours.foldl
            (fun st sh =>
              let diff := (h - sh).natAbs
              if oLt (some diff) st.2 then (some it, some diff) else st)
            st)
        ((none : Option Sample), (none : Option Nat))).1
  | _, _ => none

/-- The unit-system-dependent domain bounds `[min, max]` selected by the
`if`/`else if`/`else` chain of `vm.tempStyle`. -/
def tempDomain (units : String) : ℚ × ℚ :=
  if units = "imperial" then (-20, 110)
  else if units = "metric" then (-10, 45)
  else (260, 320)

/-- The hue computation of `vm.tempStyle`:
`clamped = Math.max(min, Math.min(temp, max))`,
`ratio = (clamped - min) / (max - min)`, `hue = (1 - ratio) * 220`. -/
def tempHue (units : String) (temp : ℚ) : ℚ :=
  let dom := tempDomain units
  let mn := dom.1
  let mx := dom.2
  let clamped := max mn (min temp mx)
  let ratio := (clamped - mn) / (mx - mn)
  (1 - ratio) * 220

/-- `vm.tempStyle(temp)`: `{}` for a null temperature, else the
foreground/background `hsl` color strings at the computed hue (the fixed
`border-radius`/`padding` entries carry no information and are omitted). -/
def tempStyle (units : String) : Option ℚ → Option (String × String)
  | none => none
  | some temp =>
      let hue := tempHue units temp
      some ("hsl(" ++ toString hue ++ ", 70%, 25%)",
            "hsl(" ++ toString hue ++ ", 85%, 90%)")

/-- `vm.unitsLabel()`: the `switch` on `vm.units`. -/
def unitsLabel (units : String) : String :=
  if units = "imperial" then "°F"
  else if units = "standard" then "K"
  else "°C"

/-- `vm.speedUnit()`. -/
def speedUnit (units : String) : String :=
  if units = "imperial" then "mph" else "m/s"

/-- The geocoded place record; each field may be absent or an empty string
(both falsy under `filter(Boolean)`). -/
structure Place where
  name : Option String
  state : Option String
  country : Option String
  deriving Repr, DecidableEq

/-- A JS value is kept by `filter(Boolean)` iff it is present and not `""`. -/
def truthyParts (l : List (Option String)) : List String :=
  (l.filterMap id).filter (fun s => !(s = ""))

/-- `vm.placeName()`:
`[p.name, p.state, p.country].filter(Boolean).join(", ") || "Your location"`. -/
def placeName (place : Option Place) : String :=
  let p := place.getD { name := none, state := none, country := none }
  let joined := String.intercalate ", " (truthyParts [p.name, p.state, p.country])
  if joined = "" then "Your location" else joined

/-- The fetch payload the controller receives: `data.current` (opaque,
only its presence matters), `data.forecast.list`, `data.place`. -/
structure Payload where
  current : Option Unit
  forecastList : Option (List Sample)
  place : Option Place
  deriving Repr, DecidableEq

/-- The controller state touched by `vm.search`. -/
structure VmState where
  loading : Bool
  error : Option String
  data : Payload
  groupedForecast : List Bucket
  slots : List Slot
  deriving Repr, DecidableEq

/-- `vm.data` reset value: `{ forecast: { list: [] }, current: null, place: null }`. -/
def emptyData : Payload :=
  { current := none, forecastList := some [],
    place := none }

/-- How one search attempt resolves: the promise fulfills with a payload
(possibly `null`), or rejects with an error whose `err.data.error` text may
or may not be present. -/
inductive FetchOutcome where
  | success (data : Option Payload)
  | failure (errMsg : Option String)
  deriving Repr, DecidableEq

/-- One complete run of `vm.search()` for a given fetch outcome:
`loading = true; error = null;` synchronously, then the `.then`/`.catch`
handler, then the `.finally` handler (`loading = false`). -/
def searchStep (loc : Locale) (st : VmState) (outcome : FetchOutcome) : VmState :=
  let st1 : VmState := { st with loading := true, error := none }
  let st2 : VmState :=
    match outcome with
    | .success data =>
        match data with
        | none =>
            { st1 with error := some "No weather data found.",
                       data := emptyData, groupedForecast := [], slots := [] }
        | some d =>
            if d.current.isNone then
              { st1 with error := some "No weather data found.",
                         data := emptyData, groupedForecast := [], slots := [] }
            else
              { st1 with data := d,
                         groupedForecast := buildGroupedForecast loc d.forecastList,
                         slots := buildTimeSlots }
    | .failure errMsg =>
        { st1 with error := some (errMsg.getD "Failed to load weather.") }
  { st2 with loading := false }

/-!  ### A concrete locale: a viewer on UTC

`civilFromDays` is the standard conversion from days-since-epoch to a
Gregorian (year, month 1–12, day) triple; all intermediate quotients are
taken on non-negative values, so truncating `Int` division agrees with
floor division there. -/

/-- Days since 1970-01-01 to Gregorian (year, month 1–12, day of month). -/
def civilFromDays (z0 : Int) : Int × Int × Int :=
  let z := z0 + 719468
  let era := (if 0 ≤ z then z else z - 146096) / 146097
  let doe := z - era * 146097
  let yoe := (doe - doe / 1460 + doe / 36524 - doe / 146096) / 365
  let y := yoe + era * 400
  let doy := doe - (365 * yoe + yoe / 4 - yoe / 100)
  let mp := (5 * doy + 2) / 153
  let d := doy - (153 * mp + 2) / 5 + 1
  let m := mp + (if mp < 10 then 3 else -9)
  (y + (if m ≤ 2 then 1 else 0), m, d)

/-- The viewer-local calendar of a viewer whose clock is UTC; `month` is
0-based as `getMonth()` is, and the date label is a plain ISO-ish string
(its exact text is irrelevant to every property below). -/
def utcLocale : Locale := fun dt =>
  let days := Int.fdiv dt 86400
  let ymd := civilFromDays days
  { year := ymd.1
    month := ymd.2.1 - 1
    day := ymd.2.2
    hour := Int.emod (Int.fdiv dt 3600) 24
    dateLabel := toString ymd.1 ++ "/" ++ toString ymd.2.1 ++ "/" ++ toString ymd.2.2 }

/-!  ### Specification vocabulary -/

/-- The distinct day keys of an input list, in order of first encounter. -/
def keysInOrder (loc : Locale) (l : List Sample) : List String :=
  l.foldl (fun ks it => if dayKey loc it.dt ∈ ks then ks else ks ++ [dayKey loc it.dt]) []

/-- The items recorded under key `k` in the grouped association list
(first entry with that key; `[]` when absent). -/
def itemsOf (k : String) (assoc : List (String × Bucket)) : List Sample :=
  match assoc.find? (fun p => p.1 = k) with
  | some p => p.2.items
  | none => []

/-- The minimum of `Math.abs(h - sh)` over a slot's target hours
(`none` for an empty hour list — no pair is ever examined). -/
def mdist (h : Int) : List Int → Option Nat
  | [] => none
  | sh :: rest =>
      some (match mdist h rest with
            | none => (h - sh).natAbs
            | some m => Nat.min ((h - sh).natAbs) m)

/-- The slot-distance of a sample: minimal hour distance from its local
hour to the slot's target hours. -/
def sampleDist (loc : Locale) (hours : List Int) (it : Sample) : Option Nat :=
  mdist ((loc it.dt).hour) hours

/-!  ## General lemmas -/

lemma foldl_const {α β : Type _} (l : List α) (init : β) :
    l.foldl (fun st _ => st) init = init := by
  induction l generalizing init with
  | nil => rfl
  | cons a as ih => simp [ih init]

@[simp] lemma oLt_none_left (x : Option Nat) : oLt none x = false := rfl

@[simp] lemma oLt_some_none (d : Nat) : oLt (some d) none = true := rfl

@[simp] lemma oLt_some_some (d b : Nat) : oLt (some d) (some b) = decide (d < b) := rfl

lemma oLt_irrefl (a : Option Nat) : oLt a a = false := by
  cases a <;> simp

lemma oLt_asymm {a b : Option Nat} (h : oLt a b = true) : oLt b a = false := by
  cases a <;> cases b <;> simp_all <;> omega

lemma oLt_trans {a b c : Option Nat} (h1 : oLt a b = true) (h2 : oLt b c = true) :
    oLt a c = true := by
  cases a <;> cases b <;> cases c <;> simp_all <;> omega

lemma oLt_of_lt_of_not_lt {a c d : Option Nat} (h1 : oLt a d = true) (h2 : oLt c d = false) :
    oLt a c = true := by
  cases a <;> cases c <;> cases d <;> simp_all <;> omega

/-- Scanning one item's target hours from state `st` either improves the
best distance to the item's slot-distance or leaves the state unchanged. -/
lemma hours_foldl_char (it : Sample) (h : Int) (hours : List Int)
    (st : Option Sample × Option Nat) :
    hours.foldl
      (fun st sh =>
        if oLt (some ((h - sh).natAbs)) st.2 then (some it, some ((h - sh).natAbs)) else st)
      st
    = if oLt (mdist h hours) st.2 then (some it, mdist h hours) else st := by
  induction hours generalizing st with
  | nil => simp [mdist]
  | cons sh rest ih =>
      rcases st with ⟨b, d⟩
      rw [List.foldl_cons, ih]
      rcases hmd : mdist h rest with _ | m <;> cases d with
      | _ =>
        first
        | (simp only [mdist, hmd, oLt_some_none, oLt_some_some]
           split_ifs <;> simp_all [Nat.min_def] <;> omega)
        | (simp [mdist, hmd, Nat.min_def]
           split_ifs <;> simp_all <;> omega)

/-- The `items.forEach` scan of `findForecastForSlot`, as a recursion on
the item list: each item either strictly improves the running best or is
skipped. -/
def scanItems (loc : Locale) (hours : List Int) :
    List Sample → (Option Sample × Option Nat) → (Option Sample × Option Nat)
  | [], st => st
  | it :: rest, st =>
      if oLt (sampleDist loc hours it) st.2
      then scanItems loc hours rest (some it, sampleDist loc hours it)
      else scanItems loc hours rest st

lemma foldl_eq_scanItems (loc : Locale) (hours : List Int) (items : List Sample)
    (st : Option Sample × Option Nat) :
    items.foldl
      (fun st it =>
        hours.foldl
          (fun st sh =>
            if oLt (some (((loc it.dt).hour - sh).natAbs)) st.2
            then (some it, some (((loc it.dt).hour - sh).natAbs)) else st)
          st)
      st
    = scanItems loc hours items st := by
  induction items generalizing st with
  | nil => rfl
  | cons it rest ih =>
      rw [List.foldl_cons, hours_foldl_char it ((loc it.dt).hour) hours st]
      rcases st with ⟨b, d⟩
      by_cases hlt : oLt (mdist ((loc it.dt).hour) hours) d = true
      · rw [if_pos hlt, ih, scanItems, if_pos (by simpa [sampleDist] using hlt)]
        rfl
      · rw [if_neg hlt, ih, scanItems,
          if_neg (by simpa [sampleDist] using hlt)]

/-- Characterization of the scan: from state `(b, d)` it either leaves the
state unchanged (no item beats `d`) or returns the first item achieving
the minimal slot-distance among those beating `d`. -/
lemma scanItems_char (loc : Locale) (hours : List Int) :
    ∀ (items : List Sample) (b : Option Sample) (d : Option Nat),
      ((∀ it ∈ items, oLt (sampleDist loc hours it) d = false) ∧
        scanItems loc hours items (b, d) = (b, d))
      ∨ (∃ pre best post,
          items = pre ++ best :: post ∧
          oLt (sampleDist loc hours best) d = true ∧
          (∀ it ∈ pre, oLt (sampleDist loc hours best) (sampleDist loc hours it) = true) ∧
          (∀ it ∈ items, oLt (sampleDist loc hours it) (sampleDist loc hours best) = false) ∧
          scanItems loc hours items (b, d) = (some best, sampleDist loc hours best)) := by
  intro items
  induction items with
  | nil => exact fun b d => Or.inl ⟨by simp, rfl⟩
  | cons it rest ih =>
      intro b d
      by_cases hlt : oLt (sampleDist loc hours it) d = true
      · rcases ih (some it) (sampleDist loc hours it) with ⟨hall, heq⟩ |
          ⟨pre', best', post', hsplit, hbd, hpre, hall, heq⟩
        · refine Or.inr ⟨[], it, rest, by simp, hlt, by simp, ?_, ?_⟩
          · intro x hx
            rcases List.mem_cons.mp hx with rfl | hx
            · exact oLt_irrefl _
            · exact hall x hx
          · simp only [scanItems, if_pos hlt]
            exact heq
        · refine Or.inr ⟨it :: pre', best', post', by simp [hsplit], oLt_trans hbd hlt, ?_, ?_, ?_⟩
          · intro x hx
            rcases List.mem_cons.mp hx with rfl | hx
            · exact hbd
            · exact hpre x hx
          · intro x hx
            rcases List.mem_cons.mp hx with rfl | hx
            · exact oLt_asymm hbd
            · exact hall x (by rw [hsplit] at hx ⊢; exact hx)
          · simp only [scanItems, if_pos hlt]
            exact heq
      · rcases ih b d with ⟨hall, heq⟩ |
          ⟨pre', best', post', hsplit, hbd, hpre, hall, heq⟩
        · refine Or.inl ⟨?_, ?_⟩
          · intro x hx
            rcases List.mem_cons.mp hx with rfl | hx
            · exact eq_false_of_ne_true hlt
            · exact hall x hx
          · simp only [scanItems, if_neg hlt]
            exact heq
        · refine Or.inr ⟨it :: pre', best', post', by simp [hsplit],
            hbd, ?_, ?_, ?_⟩
          · intro x hx
            rcases List.mem_cons.mp hx with rfl | hx
            · exact oLt_of_lt_of_not_lt hbd (eq_false_of_ne_true hlt)
            · exact hpre x hx
          · intro x hx
            rcases List.mem_cons.mp hx with rfl | hx
            · exact oLt_asymm (oLt_of_lt_of_not_lt hbd (eq_false_of_ne_true hlt))
            · exact hall x (by rw [hsplit] at hx ⊢; exact hx)
          · simp only [scanItems, if_neg hlt]
            exact heq

lemma mdist_isSome (h : Int) (hours : List Int) (hne : hours ≠ []) :
    ∃ m, mdist h hours = some m := by
  cases hours with
  | nil => exact absurd rfl hne
  | cons sh rest => exact ⟨_, rfl⟩

/-!  ### Grouping lemmas -/

lemma groupedInsert_keys (key lab : String) (it : Sample) (acc : List (String × Bucket)) :
    (groupedInsert key lab it acc).map Prod.fst =
      if key ∈ acc.map Prod.fst then acc.map Prod.fst else acc.map Prod.fst ++ [key] := by
  induction acc with
  | nil => simp [groupedInsert]
  | cons e rest ih =>
      rcases e with ⟨k, b⟩
      by_cases hk : k = key
      · subst hk
        simp [groupedInsert]
      · simp only [groupedInsert, if_neg hk, List.map_cons, ih]
        have hne : key ≠ k := Ne.symm hk
        have hiff : key ∈ k :: rest.map Prod.fst ↔ key ∈ rest.map Prod.fst := by
          rw [List.mem_cons]
          simp [hne]
        by_cases hmem : key ∈ rest.map Prod.fst
        · rw [if_pos hmem, if_pos (hiff.mpr hmem)]
        · rw [if_neg hmem, if_neg (fun h => hmem (hiff.mp h))]
          simp

lemma groupByDay_keys (loc : Locale) (l : List Sample) (acc : List (String × Bucket)) :
    (groupByDay loc l acc).map Prod.fst =
      l.foldl (fun ks it => if dayKey loc it.dt ∈ ks then ks else ks ++ [dayKey loc it.dt])
        (acc.map Prod.fst) := by
  induction l generalizing acc with
  | nil => rfl
  | cons it rest ih =>
      rw [groupByDay, ih, List.foldl_cons, groupedInsert_keys]

lemma groupByDay_keys_nil (loc : Locale) (l : List Sample) :
    (groupByDay loc l []).map Prod.fst = keysInOrder loc l :=
  groupByDay_keys loc l []

lemma keysInOrder_foldl_nodup (loc : Locale) (l : List Sample) (ks : List String)
    (h : ks.Nodup) :
    (l.foldl (fun ks it => if dayKey loc it.dt ∈ ks then ks else ks ++ [dayKey loc it.dt])
      ks).Nodup := by
  induction l generalizing ks with
  | nil => exact h
  | cons it rest ih =>
      rw [List.foldl_cons]
      by_cases hmem : dayKey loc it.dt ∈ ks
      · rw [if_pos hmem]; exact ih ks h
      · rw [if_neg hmem]
        exact ih _ (by simp [List.nodup_append, h, hmem])

lemma keysInOrder_nodup (loc : Locale) (l : List Sample) : (keysInOrder loc l).Nodup :=
  keysInOrder_foldl_nodup loc l [] List.nodup_nil

lemma mem_keysInOrder_foldl (loc : Locale) (l : List Sample) (ks : List String) (k : String) :
    (k ∈ l.foldl (fun ks it => if dayKey loc it.dt ∈ ks then ks else ks ++ [dayKey loc it.dt]) ks)
      ↔ k ∈ ks ∨ ∃ it ∈ l, dayKey loc it.dt = k := by
  induction l generalizing ks with
  | nil => simp
  | cons it rest ih =>
      rw [List.foldl_cons]
      by_cases hmem : dayKey loc it.dt ∈ ks
      · rw [if_pos hmem, ih]
        constructor
        · rintro (hk | hk)
          · exact Or.inl hk
          · exact Or.inr (by rcases hk with ⟨x, hx, hk⟩; exact ⟨x, List.mem_cons_of_mem it hx, hk⟩)
        · rintro (hk | ⟨x, hx, hk⟩)
          · exact Or.inl hk
          · rcases List.mem_cons.mp hx with rfl | hx
            · exact Or.inl (hk ▸ hmem)
            · exact Or.inr ⟨x, hx, hk⟩
      · rw [if_neg hmem, ih]
        constructor
        · rintro (hk | hk)
          · rcases List.mem_append.mp hk with hk | hk
            · exact Or.inl hk
            · exact Or.inr ⟨it, List.mem_cons_self it rest, (List.mem_singleton.mp hk).symm⟩
          · exact Or.inr (by rcases hk with ⟨x, hx, hk⟩; exact ⟨x, List.mem_cons_of_mem it hx, hk⟩)
        · rintro (hk | ⟨x, hx, hk⟩)
          · exact Or.inl (List.mem_append.mpr (Or.inl hk))
          · rcases List.mem_cons.mp hx with rfl | hx
            · exact Or.inl (List.mem_append.mpr (Or.inr (by simp [hk])))
            · exact Or.inr ⟨x, hx, hk⟩

lemma mem_keysInOrder (loc : Locale) (l : List Sample) (k : String) :
    k ∈ keysInOrder loc l ↔ ∃ it ∈ l, dayKey loc it.dt = k := by
  rw [keysInOrder, mem_keysInOrder_foldl]
  simp

lemma itemsOf_nil (k : String) : itemsOf k [] = [] := rfl

lemma itemsOf_cons (k k' : String) (b : Bucket) (rest : List (String × Bucket)) :
    itemsOf k ((k', b) :: rest) = if k' = k then b.items else itemsOf k rest := by
  by_cases h : k' = k <;> simp [itemsOf, List.find?, h]

lemma itemsOf_groupedInsert (k key lab : String) (it : Sample) (acc : List (String × Bucket)) :
    itemsOf k (groupedInsert key lab it acc) =
      if k = key then itemsOf k acc ++ [it] else itemsOf k acc := by
  induction acc with
  | nil =>
      by_cases hk : k = key
      · subst hk
        simp [groupedInsert, itemsOf_cons, itemsOf_nil]
      · simp [groupedInsert, itemsOf_cons, itemsOf_nil, hk, Ne.symm hk]
  | cons e rest ih =>
      rcases e with ⟨k', b⟩
      by_cases hk' : k' = key
      · subst hk'
        simp only [groupedInsert, if_pos rfl]
        by_cases hk : k = k'
        · subst hk
          simp [itemsOf_cons]
        · simp [itemsOf_cons, hk, Ne.symm hk]
      · simp only [groupedInsert, if_neg hk']
        by_cases hk2 : k' = k
        · subst hk2
          have hkey : ¬ k' = key := hk'
          simp [itemsOf_cons, hkey]
        · simp [itemsOf_cons, hk2, ih]

lemma itemsOf_groupByDay (loc : Locale) (l : List Sample) :
    ∀ (acc : List (String × Bucket)) (k : String),
      itemsOf k (groupByDay loc l acc) =
        itemsOf k acc ++ l.filter (fun it => decide (dayKey loc it.dt = k)) := by
  induction l with
  | nil => intro acc k; simp [groupByDay]
  | cons it rest ih =>
      intro acc k
      rw [groupByDay, ih, itemsOf_groupedInsert]
      by_cases hk : dayKey loc it.dt = k
      · rw [List.filter_cons_of_pos (by simp [hk]), if_pos hk.symm]
        simp
      · rw [List.filter_cons_of_neg (by simp [hk]), if_neg (fun h => hk h.symm)]

lemma itemsOf_of_mem_nodup (assoc : List (String × Bucket)) (k : String) (b : Bucket)
    (hnd : (assoc.map Prod.fst).Nodup) (hmem : (k, b) ∈ assoc) :
    itemsOf k assoc = b.items := by
  induction assoc with
  | nil => cases hmem
  | cons e rest ih =>
      rcases e with ⟨k', b'⟩
      rcases List.mem_cons.mp hmem with heq | hmem'
      · obtain ⟨rfl, rfl⟩ := Prod.mk.injEq .. ▸ heq
        rw [itemsOf_cons, if_pos rfl]
      · have hnd' : (k' :: rest.map Prod.fst).Nodup := by
          rw [List.map_cons] at hnd
          exact hnd
        have hknd := List.nodup_cons.mp hnd'
        have hkmem : k ∈ rest.map Prod.fst := by
          exact List.mem_map_of_mem Prod.fst hmem'
        have hk : k' ≠ k := fun h => hknd.1 (h ▸ hkmem)
        rw [itemsOf_cons, if_neg hk]
        exact ih hknd.2 hmem'

/-- Every bucket of the grouped association list holds exactly the input
samples carrying its key, in input order. -/
lemma bucket_items_of_mem (loc : Locale) (l : List Sample) (k : String) (b : Bucket)
    (hmem : (k, b) ∈ groupByDay loc l []) :
    b.items = l.filter (fun it => decide (dayKey loc it.dt = k)) := by
  have hnd : ((groupByDay loc l []).map Prod.fst).Nodup := by
    rw [groupByDay_keys_nil]
    exact keysInOrder_nodup loc l
  have h1 := itemsOf_of_mem_nodup _ k b hnd hmem
  have h2 := itemsOf_groupByDay loc l [] k
  rw [h1, itemsOf_nil, List.nil_append] at h2
  exact h2

lemma countP_eq_one_of_nodup_mem {α : Type _} [DecidableEq α] (l : List α) (a : α)
    (hnd : l.Nodup) (ha : a ∈ l) : l.countP (fun x => decide (x = a)) = 1 := by
  induction l with
  | nil => cases ha
  | cons x rest ih =>
      have hx := List.nodup_cons.mp hnd
      rcases List.mem_cons.mp ha with rfl | ha'
      · rw [List.countP_cons]
        have hzero : rest.countP (fun y => decide (y = a)) = 0 :=
          List.countP_eq_zero.mpr (fun y hy => by
            simp only [decide_eq_true_eq]
            exact fun h => hx.1 (h ▸ hy))
        simp [hzero]
      · have hxa : x ≠ a := fun h => hx.1 (h ▸ ha')
        rw [List.countP_cons]
        simp [hxa, ih hx.2 ha']

lemma countP_map_general {α β : Type _} (f : α → β) (p : β → Bool) (l : List α) :
    (l.map f).countP p = l.countP (fun x => p (f x)) := by
  induction l with
  | nil => rfl
  | cons a rest ih => simp [List.countP_cons, ih]

lemma countP_fst_eq_one (assoc : List (String × Bucket)) (a : String)
    (hnd : (assoc.map Prod.fst).Nodup) (ha : a ∈ assoc.map Prod.fst) :
    assoc.countP (fun e => decide (e.1 = a)) = 1 := by
  induction assoc with
  | nil => cases ha
  | cons e rest ih =>
      rw [List.map_cons] at hnd ha
      have hx := List.nodup_cons.mp hnd
      rw [List.countP_cons]
      rcases List.mem_cons.mp ha with rfl | ha'
      · have hzero : rest.countP (fun x => decide (x.1 = e.1)) = 0 :=
          List.countP_eq_zero.mpr (fun x hxm => by
            simp only [decide_eq_true_eq]
            exact fun h => hx.1 (h ▸ List.mem_map_of_mem Prod.fst hxm))
        simp [hzero]
      · have hne : ¬ (e.1 = a) := fun h => hx.1 (h ▸ ha')
        simp [hne, ih hx.2 ha']

lemma tempDomain_lt (units : String) : (tempDomain units).1 < (tempDomain units).2 := by
  unfold tempDomain
  split_ifs <;> norm_num

lemma string_eq_empty_of_length (s : String) (h : s.length = 0) : s = "" := by
  cases s with
  | mk data =>
      simp [String.length] at h
      simp [h]

lemma intercalate_go_ne_empty (sep : String) (l : List String) (acc : String)
    (h : acc ≠ "") : String.intercalate.go acc sep l ≠ "" := by
  induction l generalizing acc with
  | nil => rw [String.intercalate.go]; exact h
  | cons a as ih =>
      rw [String.intercalate.go]
      apply ih
      intro hc
      apply h
      have hlen := congrArg String.length hc
      simp only [String.length_append, String.length_empty] at hlen
      exact string_eq_empty_of_length acc (by omega)

lemma intercalate_cons_ne_empty (sep a : String) (l : List String) (h : a ≠ "") :
    String.intercalate sep (a :: l) ≠ "" := by
  rw [String.intercalate]
  exact intercalate_go_ne_empty sep l a h

/-!  ## Claims -/

/-- C7: any unit-system string other than "imperial" and "metric" selects the
standard (absolute) domain bounds min = 260, max = 320, and the colorizer
behaves exactly as for "standard". -/
theorem tempDomain_fallback_standard (units : String)
    (h1 : units ≠ "imperial") (h2 : units ≠ "metric") :
    tempDomain units = (260, 320) ∧
    ∀ t : Option ℚ, tempStyle units t = tempStyle "standard" t := by
  have hdom : tempDomain units = (260, 320) := by
    simp [tempDomain, h1, h2]
  refine ⟨hdom, ?_⟩
  intro t
  cases t with
  | none => rfl
  | some temp =>
      have hstd : tempDomain "standard" = (260, 320) := rfl
      simp only [tempStyle, tempHue, hdom, hstd]

/-- C7 witness: the unrecognized unit string "kelvin" gets the standard
domain and the standard colors. -/
theorem tempDomain_fallback_standard_witness :
    tempDomain "kelvin" = (260, 320) ∧
    tempStyle "kelvin" (some 280) = tempStyle "standard" (some 280) := by
  have h := tempDomain_fallback_standard "kelvin" (by decide) (by decide)
  exact ⟨h.1, h.2 (some 280)⟩

/-- C10: any unit-system string other than "imperial" and "standard" is
labeled "°C" (the metric label); when it is moreover not "metric", the
colorizer still uses the standard domain [260, 320] — an unrecognized unit
system is labeled as metric but colored as standard. -/
theorem unitsLabel_default_celsius (units : String)
    (h1 : units ≠ "imperial") (h2 : units ≠ "standard") :
    unitsLabel units = "°C" ∧
    (units ≠ "metric" → tempDomain units = (260, 320)) := by
  constructor
  · simp [unitsLabel, h1, h2]
  · intro h3
    simp [tempDomain, h1, h3]

/-- C10 witness: the unrecognized unit string "bogus" is labeled "°C" yet
colored over the standard domain. -/
theorem unitsLabel_default_celsius_witness :
    unitsLabel "bogus" = "°C" ∧ tempDomain "bogus" = (260, 320) := by
  have h := unitsLabel_default_celsius "bogus" (by decide) (by decide)
  exact ⟨h.1, h.2 (by decide)⟩

/-- C8: the three core functions are total and yield empty/neutral results
on absent or empty input: `buildGroupedForecast` of `null` or `[]` is `[]`;
`findForecastForSlot` of falsy items, of an empty item list, of a slot with
falsy `hours`, or of a slot with an empty hour list, is `null`; `tempStyle`
of a `null` temperature is the empty style. -/
theorem core_totality (loc : Locale) :
    buildGroupedForecast loc none = [] ∧
    buildGroupedForecast loc (some []) = [] ∧
    (∀ slot, findForecastForSlot loc none slot = none) ∧
    (∀ slot, findForecastForSlot loc (some []) slot = none) ∧
    (∀ items slot, slot.hours = none → findForecastForSlot loc items slot = none) ∧
    (∀ items slot, slot.hours = some [] → findForecastForSlot loc items slot = none) ∧
    (∀ units, tempStyle units none = none) := by
  refine ⟨rfl, rfl, ?_, ?_, ?_, ?_, fun _ => rfl⟩
  · intro slot
    cases h : slot.hours <;> simp [findForecastForSlot, h]
  · intro slot
    cases h : slot.hours <;> simp [findForecastForSlot, h]
  · intro items slot h
    cases items <;> simp [findForecastForSlot, h]
  · intro items slot h
    cases items with
    | none => simp [findForecastForSlot]
    | some l =>
        simp only [findForecastForSlot, h]
        rw [show (fun (st : Option Sample × Option Nat) (it : Sample) =>
              ([] : List Int).foldl
                (fun st sh =>
                  if oLt (some ((((loc it.dt).hour) - sh).natAbs)) st.2
                  then (some it, some ((((loc it.dt).hour) - sh).natAbs)) else st)
                st) = fun st _ => st from rfl]
        rw [foldl_const]

/-- C8 witness: concrete empty/absent inputs produce the neutral outputs. -/
theorem core_totality_witness :
    findForecastForSlot utcLocale (some [{ dt := 0 }]) { label := "x", hours := none } = none ∧
    findForecastForSlot utcLocale (some [{ dt := 0 }]) { label := "x", hours := some [] } = none ∧
    buildGroupedForecast utcLocale none = [] := by
  refine ⟨?_, ?_, (core_totality utcLocale).1⟩
  · exact (core_totality utcLocale).2.2.2.2.1 _ _ rfl
  · exact (core_totality utcLocale).2.2.2.2.2.1 _ _ rfl

/-- C1 counterexample: a rejected fetch (`.catch`) sets the error message
and stops loading but does **not** clear the current grid — starting from a
state with a non-empty `groupedForecast`, the grid survives a failed
search, contradicting the claim that every failure clears the grid. -/
theorem searchStep_failure_keeps_grid :
    (searchStep utcLocale
        { loading := false, error := none, data := emptyData,
          groupedForecast := [{ label := "1/1", items := [{ dt := 0 }] }],
          slots := buildTimeSlots }
        (.failure none)).groupedForecast
      = [{ label := "1/1", items := [{ dt := 0 }] }] ∧
    [({ label := "1/1", items := [{ dt := 0 }] } : Bucket)] ≠ [] ∧
    (searchStep utcLocale
        { loading := false, error := none, data := emptyData,
          groupedForecast := [{ label := "1/1", items := [{ dt := 0 }] }],
          slots := buildTimeSlots }
        (.failure none)).error = some "Failed to load weather." := by
  refine ⟨rfl, by simp, rfl⟩

/-- C1 amended: on a NoDataFound resolution (payload `null` or without
current-conditions data) the presenter clears the grid, reports exactly
"No weather data found." and stops loading; on a rejected fetch it sets the
error message (the payload's error text when present, else the generic
"Failed to load weather."), stops loading, but leaves the grid and slots
unchanged. -/
theorem searchStep_failure_spec (loc : Locale) (st : VmState) :
    (∀ data : Option Payload,
       (data = none ∨ ∃ d, data = some d ∧ d.current = none) →
       searchStep loc st (.success data) =
         { loading := false, error := some "No weather data found.",
           data := emptyData, groupedForecast := [], slots := [] }) ∧
    (∀ msg : Option String,
       (searchStep loc st (.failure msg)).error = some (msg.getD "Failed to load weather.") ∧
       (searchStep loc st (.failure msg)).groupedForecast = st.groupedForecast ∧
       (searchStep loc st (.failure msg)).slots = st.slots ∧
       (searchStep loc st (.failure msg)).loading = false) := by
  constructor
  · rintro data (rfl | ⟨d, rfl, hd⟩)
    · rfl
    · simp [searchStep, Option.isNone_iff_eq_none.mpr hd]
  · intro msg
    exact ⟨rfl, rfl, rfl, rfl⟩

/-- C1 amended, witness: both failure shapes at a concrete state. -/
theorem searchStep_failure_spec_witness :
    (searchStep utcLocale
        { loading := false, error := none, data := emptyData,
          groupedForecast := [{ label := "1/1", items := [{ dt := 0 }] }],
          slots := buildTimeSlots }
        (.success (some { current := none, forecastList := some [], place := none })))
      = { loading := false, error := some "No weather data found.",
          data := emptyData, groupedForecast := [], slots := [] } ∧
    (searchStep utcLocale
        { loading := false, error := none, data := emptyData,
          groupedForecast := [{ label := "1/1", items := [{ dt := 0 }] }],
          slots := buildTimeSlots }
        (.failure (some "city not found"))).error = some "city not found" := by
  constructor
  · exact (searchStep_failure_spec utcLocale _).1
      (some { current := none, forecastList := some [], place := none })
      (Or.inr ⟨_, rfl, rfl⟩)
  · exact ((searchStep_failure_spec utcLocale _).2 (some "city not found")).1

/-- C6: the colorizer clamps to the unit system's domain — any temperature
below the domain minimum yields the same color pair as the minimum, any
temperature above the maximum the same pair as the maximum. -/
theorem tempStyle_clamps (units : String) (t : ℚ) :
    (t < (tempDomain units).1 →
       tempStyle units (some t) = tempStyle units (some (tempDomain units).1)) ∧
    ((tempDomain units).2 < t →
       tempStyle units (some t) = tempStyle units (some (tempDomain units).2)) := by
  have hlt := tempDomain_lt units
  constructor
  · intro h
    have hL : max (tempDomain units).1 (min t (tempDomain units).2) = (tempDomain units).1 := by
      rw [min_eq_left (by linarith), max_eq_left (by linarith)]
    have hR : max (tempDomain units).1 (min (tempDomain units).1 (tempDomain units).2) =
        (tempDomain units).1 := by
      rw [min_eq_left hlt.le, max_self]
    simp only [tempStyle, tempHue, hL, hR]
  · intro h
    have hL : max (tempDomain units).1 (min t (tempDomain units).2) = (tempDomain units).2 := by
      rw [min_eq_right (by linarith), max_eq_right hlt.le]
    have hR : max (tempDomain units).1 (min (tempDomain units).2 (tempDomain units).2) =
        (tempDomain units).2 := by
      rw [min_self, max_eq_right hlt.le]
    simp only [tempStyle, tempHue, hL, hR]

/-- C6 witness: for metric units, -50 colors like -10 and 100 like 45. -/
theorem tempStyle_clamps_witness :
    tempStyle "metric" (some (-50)) = tempStyle "metric" (some (-10)) ∧
    tempStyle "metric" (some 100) = tempStyle "metric" (some 45) := by
  have hdm : tempDomain "metric" = (-10, 45) := rfl
  have h1 := (tempStyle_clamps "metric" (-50)).1
  have h2 := (tempStyle_clamps "metric" 100).2
  rw [hdm] at h1 h2
  exact ⟨h1 (by norm_num), h2 (by norm_num)⟩

/-- C5: for metric units the hue is 220 at -10 and 0 at 45, and for every
unit system the hue is monotonically non-increasing in the temperature
(in particular for pairs within the domain bounds). -/
theorem tempHue_sweep :
    tempHue "metric" (-10) = 220 ∧ tempHue "metric" 45 = 0 ∧
    ∀ (units : String) (t1 t2 : ℚ), t1 < t2 → tempHue units t2 ≤ tempHue units t1 := by
  have hdm : tempDomain "metric" = (-10, 45) := rfl
  refine ⟨?_, ?_, ?_⟩
  · simp only [tempHue, hdm]
    norm_num
  · simp only [tempHue, hdm]
    norm_num
  · intro units t1 t2 h
    have hlt := tempDomain_lt units
    simp only [tempHue]
    have hc : max (tempDomain units).1 (min t1 (tempDomain units).2) ≤
        max (tempDomain units).1 (min t2 (tempDomain units).2) :=
      max_le_max le_rfl (min_le_min h.le le_rfl)
    have hd : (0 : ℚ) < (tempDomain units).2 - (tempDomain units).1 := by linarith
    have hr : (max (tempDomain units).1 (min t1 (tempDomain units).2) - (tempDomain units).1) /
          ((tempDomain units).2 - (tempDomain units).1) ≤
        (max (tempDomain units).1 (min t2 (tempDomain units).2) - (tempDomain units).1) /
          ((tempDomain units).2 - (tempDomain units).1) := by
      gcongr
    linarith

/-- C5 witness: the endpoint hues, and monotonicity at the concrete metric
pair 0 < 10. -/
theorem tempHue_sweep_witness :
    tempHue "metric" (-10) = 220 ∧ tempHue "metric" 45 = 0 ∧
    tempHue "metric" 10 ≤ tempHue "metric" 0 := by
  exact ⟨tempHue_sweep.1, tempHue_sweep.2.1, tempHue_sweep.2.2 "metric" 0 10 (by norm_num)⟩

/-- C9: the place name is the truthy (present and non-empty) components
among name, state, country, in that order, joined by ", "; when no
component is truthy — in particular when the place record is absent — it is
the placeholder "Your location". -/
theorem placeName_spec (place : Option Place) :
    placeName place =
      (let p := place.getD { name := none, state := none, country := none }
       let parts := truthyParts [p.name, p.state, p.country]
       if parts = [] then "Your location" else String.intercalate ", " parts) := by
  simp only [placeName]
  cases hp : truthyParts
      [(place.getD { name := none, state := none, country := none }).name,
       (place.getD { name := none, state := none, country := none }).state,
       (place.getD { name := none, state := none, country := none }).country] with
  | nil => simp [show String.intercalate ", " ([] : List String) = "" from rfl]
  | cons a rest =>
      have ha : a ≠ "" := by
        have hmem : a ∈ truthyParts
            [(place.getD { name := none, state := none, country := none }).name,
             (place.getD { name := none, state := none, country := none }).state,
             (place.getD { name := none, state := none, country := none }).country] := by
          rw [hp]; exact List.mem_cons_self a rest
        have := List.of_mem_filter hmem
        simpa using this
      have hne := intercalate_cons_ne_empty ", " a rest ha
      simp [hne]

/-- C4: for non-empty items and a slot with a non-empty hour list, the
matcher returns the item whose minimal hour-distance to the slot's hours is
minimal over the whole cross-product, and among equally distant items the
first in iteration order wins (every earlier item is strictly farther); in
particular, for items with local hours [5, 13, 20] and the Afternoon slot
{12, 15, 18} the hour-13 item is returned. -/
theorem findForecastForSlot_spec :
    (∀ (loc : Locale) (items : List Sample) (lab : String) (hours : List Int),
       items ≠ [] → hours ≠ [] →
       ∃ best pre post,
         findForecastForSlot loc (some items) { label := lab, hours := some hours }
           = some best ∧
         items = pre ++ best :: post ∧
         (∀ it ∈ items, oLt (sampleDist loc hours it) (sampleDist loc hours best) = false) ∧
         (∀ it ∈ pre, oLt (sampleDist loc hours best) (sampleDist loc hours it) = true))
    ∧ (∀ (loc : Locale) (s1 s2 s3 : Sample) (lab : String),
        (loc s1.dt).hour = 5 → (loc s2.dt).hour = 13 → (loc s3.dt).hour = 20 →
        findForecastForSlot loc (some [s1, s2, s3]) { label := lab, hours := some [12, 15, 18] }
          = some s2) := by
  have hfind : ∀ (loc : Locale) (items : List Sample) (lab : String) (hours : List Int),
      findForecastForSlot loc (some items) { label := lab, hours := some hours }
        = (scanItems loc hours items (none, none)).1 := by
    intro loc items lab hours
    simp only [findForecastForSlot]
    rw [foldl_eq_scanItems]
  constructor
  · intro loc items lab hours hitems hhours
    rcases scanItems_char loc hours items none none with ⟨hall, _⟩ |
      ⟨pre, best, post, hsplit, _, hpre, hall, heq⟩
    · exfalso
      rcases items with _ | ⟨it, rest⟩
      · exact hitems rfl
      · have hmem := hall it (List.mem_cons_self it rest)
        rcases mdist_isSome ((loc it.dt).hour) hours hhours with ⟨m, hm⟩
        rw [show sampleDist loc hours it = some m from hm] at hmem
        simp at hmem
    · exact ⟨best, pre, post, by rw [hfind, heq], hsplit, hall, hpre⟩
  · intro loc s1 s2 s3 lab h1 h2 h3
    rw [hfind]
    simp only [scanItems, sampleDist, mdist, h1, h2, h3]
    norm_num [oLt]

/-- C4 witness: a UTC viewer with samples at local hours 5, 13, 20 and the
Afternoon slot gets the hour-13 sample, and the general minimality
statement holds at that input. -/
theorem findForecastForSlot_spec_witness :
    findForecastForSlot utcLocale
        (some [{ dt := 5 * 3600 }, { dt := 13 * 3600 }, { dt := 20 * 3600 }])
        { label := "☀️ Afternoon", hours := some [12, 15, 18] }
      = some { dt := 13 * 3600 } ∧
    (∃ best pre post,
       findForecastForSlot utcLocale
           (some [{ dt := 5 * 3600 }, { dt := 13 * 3600 }, { dt := 20 * 3600 }])
           { label := "☀️ Afternoon", hours := some [12, 15, 18] }
         = some best ∧
       [({ dt := 5 * 3600 } : Sample), { dt := 13 * 3600 }, { dt := 20 * 3600 }]
         = pre ++ best :: post ∧
       (∀ it ∈ [({ dt := 5 * 3600 } : Sample), { dt := 13 * 3600 }, { dt := 20 * 3600 }],
          oLt (sampleDist utcLocale [12, 15, 18] it)
              (sampleDist utcLocale [12, 15, 18] best) = false) ∧
       (∀ it ∈ pre,
          oLt (sampleDist utcLocale [12, 15, 18] best)
              (sampleDist utcLocale [12, 15, 18] it) = true)) := by
  constructor
  · exact findForecastForSlot_spec.2 utcLocale
      { dt := 5 * 3600 } { dt := 13 * 3600 } { dt := 20 * 3600 } "☀️ Afternoon"
      (by decide) (by decide) (by decide)
  · exact findForecastForSlot_spec.1 utcLocale
      [{ dt := 5 * 3600 }, { dt := 13 * 3600 }, { dt := 20 * 3600 }] "☀️ Afternoon"
      [12, 15, 18] (by decide) (by decide)

/-- C2 counterexample: with six samples on six distinct local days, the
sixth-day sample appears in **zero** DayBuckets of the output (the 5-day
cap drops its bucket), not in exactly one. -/
theorem buildGroupedForecast_sixth_day_dropped :
    ({ dt := 5 * 86400 } : Sample) ∈
      ([{ dt := 0 }, { dt := 86400 }, { dt := 2 * 86400 }, { dt := 3 * 86400 },
        { dt := 4 * 86400 }, { dt := 5 * 86400 }] : List Sample) ∧
    (buildGroupedForecast utcLocale
        (some [{ dt := 0 }, { dt := 86400 }, { dt := 2 * 86400 }, { dt := 3 * 86400 },
               { dt := 4 * 86400 }, { dt := 5 * 86400 }])).countP
        (fun b => decide (({ dt := 5 * 86400 } : Sample) ∈ b.items)) = 0 := by
  constructor
  · decide
  · decide

/-- C2 amended: every sample whose local day key is among the first five
distinct keys (in order of first encounter) appears in exactly one
DayBucket of the output, and any output bucket containing it holds exactly
the input samples of that day, in original relative order; samples of later
day keys are dropped by the 5-bucket cap (see the C3 theorem). -/
theorem buildGroupedForecast_grouping (loc : Locale) (l : List Sample) (s : Sample)
    (hs : s ∈ l) (hkey : dayKey loc s.dt ∈ (keysInOrder loc l).take 5) :
    (buildGroupedForecast loc (some l)).countP (fun b => decide (s ∈ b.items)) = 1 ∧
    ∀ b ∈ buildGroupedForecast loc (some l), s ∈ b.items →
      b.items = l.filter (fun it => decide (dayKey loc it.dt = dayKey loc s.dt)) := by
  have hout : buildGroupedForecast loc (some l)
      = ((groupByDay loc l []).take 5).map Prod.snd := by
    simp only [buildGroupedForecast]
    rw [List.map_take]
  have hkeys5 : ((groupByDay loc l []).take 5).map Prod.fst = (keysInOrder loc l).take 5 := by
    rw [List.map_take, groupByDay_keys_nil]
  have hnd5 : (((groupByDay loc l []).take 5).map Prod.fst).Nodup := by
    rw [hkeys5]
    exact (keysInOrder_nodup loc l).sublist (List.take_sublist _ _)
  have hpt : ∀ e ∈ (groupByDay loc l []).take 5,
      (decide (s ∈ e.2.items) = true ↔ decide (e.1 = dayKey loc s.dt) = true) := by
    intro e he
    have hmem : (e.1, e.2) ∈ groupByDay loc l [] := List.mem_of_mem_take he
    have hitems := bucket_items_of_mem loc l e.1 e.2 hmem
    simp only [decide_eq_true_eq]
    rw [hitems]
    constructor
    · intro hsf
      have hkf := (List.mem_filter.mp hsf).2
      simp only [decide_eq_true_eq] at hkf
      exact hkf.symm
    · intro hke
      exact List.mem_filter.mpr ⟨hs, by simp [hke]⟩
  constructor
  · rw [hout, countP_map_general, List.countP_congr hpt]
    apply countP_fst_eq_one _ _ hnd5
    rw [hkeys5]
    exact hkey
  · intro b hb hsb
    rw [hout] at hb
    rcases List.mem_map.mp hb with ⟨e, he, rfl⟩
    have hmem : (e.1, e.2) ∈ groupByDay loc l [] := List.mem_of_mem_take he
    have hitems := bucket_items_of_mem loc l e.1 e.2 hmem
    have hke : e.1 = dayKey loc s.dt := by
      rw [hitems] at hsb
      have hkf := (List.mem_filter.mp hsb).2
      simp only [decide_eq_true_eq] at hkf
      exact hkf.symm
    rw [hitems, hke]

/-- C2 amended, witness: two same-day samples land in exactly one bucket. -/
theorem buildGroupedForecast_grouping_witness :
    (buildGroupedForecast utcLocale (some [{ dt := 0 }, { dt := 3600 }])).countP
      (fun b => decide (({ dt := 0 } : Sample) ∈ b.items)) = 1 :=
  (buildGroupedForecast_grouping utcLocale [{ dt := 0 }, { dt := 3600 }] { dt := 0 }
    (by decide) (by decide)).1

/-- C3: when the input spans more than 5 distinct local day keys, the
output has exactly 5 buckets; the i-th bucket holds exactly the samples of
the i-th first-encountered key and is non-empty, and buckets past the fifth
are silently dropped (the function is total — there is no error channel). -/
theorem buildGroupedForecast_cap (loc : Locale) (l : List Sample)
    (h : 5 < (keysInOrder loc l).length) :
    (buildGroupedForecast loc (some l)).length = 5 ∧
    ∀ i, i < 5 →
      ∃ b k, (buildGroupedForecast loc (some l))[i]? = some b ∧
        (keysInOrder loc l)[i]? = some k ∧
        b.items = l.filter (fun it => decide (dayKey loc it.dt = k)) ∧
        b.items ≠ [] := by
  have hlen : (groupByDay loc l []).length = (keysInOrder loc l).length := by
    rw [← groupByDay_keys_nil loc l, List.length_map]
  have hout : buildGroupedForecast loc (some l)
      = ((groupByDay loc l []).map Prod.snd).take 5 := rfl
  constructor
  · rw [hout, List.length_take, List.length_map, hlen]
    omega
  · intro i hi
    have hia : i < (groupByDay loc l []).length := by omega
    obtain ⟨e, he⟩ : ∃ e, (groupByDay loc l [])[i]? = some e :=
      ⟨_, List.getElem?_eq_getElem hia⟩
    have hemem : (e.1, e.2) ∈ groupByDay loc l [] := by
      rcases List.getElem?_eq_some.mp he with ⟨hi2, hrfl⟩
      have := List.getElem_mem hi2
      rw [hrfl] at this
      exact this
    have hitems := bucket_items_of_mem loc l e.1 e.2 hemem
    refine ⟨e.2, e.1, ?_, ?_, hitems, ?_⟩
    · rw [hout, List.getElem?_take, if_pos hi, List.getElem?_map, he]
      rfl
    · rw [← groupByDay_keys_nil loc l, List.getElem?_map, he]
      rfl
    · have hkmem : e.1 ∈ keysInOrder loc l := by
        rw [← groupByDay_keys_nil loc l]
        exact List.mem_map_of_mem Prod.fst hemem
      rcases (mem_keysInOrder loc l e.1).mp hkmem with ⟨it, hit, hk⟩
      have hin : it ∈ l.filter (fun it => decide (dayKey loc it.dt = e.1)) :=
        List.mem_filter.mpr ⟨hit, by simp [hk]⟩
      rw [hitems]
      exact List.ne_nil_of_mem hin

/-- C3 witness: six distinct days collapse to a 5-bucket grid. -/
theorem buildGroupedForecast_cap_witness :
    (buildGroupedForecast utcLocale
        (some [{ dt := 0 }, { dt := 86400 }, { dt := 2 * 86400 }, { dt := 3 * 86400 },
               { dt := 4 * 86400 }, { dt := 5 * 86400 }])).length = 5 :=
  (buildGroupedForecast_cap utcLocale
    [{ dt := 0 }, { dt := 86400 }, { dt := 2 * 86400 }, { dt := 3 * 86400 },
     { dt := 4 * 86400 }, { dt := 5 * 86400 }] (by decide)).1

end WeatherApp
